import Mathlib

/-!
Verification development for the touch/responder dispatch core of a
browser-hosted GUI framework (RootResponder touch support and the scroll
view's inertial deceleration).

The JavaScript source is shallowly embedded:

* views are identified by their guid (a natural number);
* a JavaScript reference that may be a view, null, or undefined is the
  inductive type JRef (the source distinguishes null from undefined under
  strict equality, so the embedding must too);
* the mutable registries of the root responder (the view-to-touches index,
  the touch registry keyed by identifier, and each view's observable
  hasTouch flag) are the fields of RState,
  together with an append-only trace of the notifications delivered to
  views (touchCancelled / touchEnd / captureTouch queries / hasTouch
  flag writes), which makes delivery counts and orders provable;
* JavaScript numbers are rationals, except where the source can produce
  NaN from an uninitialised accumulator, where the type JSVal with an
  explicit nan constructor is used;
* view callbacks (capability queries, the touchStart offer, whether a
  callback throws) are supplied by a ViewConfig, since views are external
  collaborators of this core.
-/

abbrev ViewId := Nat

/-- A JavaScript reference cell that can hold a view, null, or undefined.
The source compares these with strict equality, under which null and
undefined differ, so both are modelled. -/
inductive JRef where
  | undef
  | null
  | view (v : ViewId)
  deriving DecidableEq

/-- Observable interactions of the dispatch core with views: hasTouch flag
writes issued by assignTouch/unassignTouch, touchCancelled and touchEnd
notifications, and captureTouch capability queries. -/
inductive Ev where
  | setHasTouch (v : ViewId) (b : Bool)
  | touchCancelled (v : ViewId) (t : Nat)
  | touchEnd (v : ViewId) (t : Nat)
  | captureQuery (v : ViewId) (t : Nat)
  deriving DecidableEq

/-- A JavaScript number that may be NaN (for averagedTouchesForView, whose
accumulator ad starts out undefined). -/
inductive JSVal where
  | undef
  | nan
  | num (q : ℚ)
  deriving DecidableEq

/-- JavaScript addition on possibly-NaN/undefined values: any non-numeric
operand yields NaN (undefined + number is NaN). -/
def jsAdd : JSVal → JSVal → JSVal
  | .num a, .num b => .num (a + b)
  | _, _ => .nan

/-- JavaScript division; non-numeric operands yield NaN. Division by zero
is unreachable in this development (the divisor is a positive length). -/
def jsDiv : JSVal → JSVal → JSVal
  | .num a, .num b => if b = 0 then .nan else .num (a / b)
  | _, _ => .nan

/-- One entry of the _touchedViews index: the CoreSet of touches assigned
to the view (modelled by the insertion-ordered list of their identifiers)
and the separately maintained touchCount. -/
structure ViewEntry where
  touches : List Nat
  touchCount : Int
  deriving DecidableEq

/-- The per-touch state of an SC.Touch record: raw target view, the view
the touch is currently assigned to in the index (touch.view), the
responder stack touch.touchResponders (null after touchend), the
touchResponder/nextTouchResponder convenience pointers, and position and
timestamp data. -/
structure TouchState where
  targetView : Option ViewId
  view : Option ViewId
  touchResponder : JRef
  nextTouchResponder : JRef
  touchResponders : Option (List ViewId)
  pageX : ℚ
  pageY : ℚ
  startX : ℚ
  startY : ℚ
  timeStamp : ℚ
  deriving DecidableEq

/-- The mutable state of the root responder: the _touchedViews index
(view guid to entry), the _touches registry (touch identifier to record),
each view's observable hasTouch property, and the trace of notifications
delivered so far. -/
structure RState where
  touchedViews : ViewId → Option ViewEntry
  touches : Nat → Option TouchState
  hasTouch : ViewId → Bool
  trace : List Ev

/-- Behaviour of the external view collaborators.

sendTouchStart is modelled from the spec: the pane's sendEvent function
(the pane is not part of these sources; only its caller is) offers the
touchStart notification starting at the candidate and bubbling up the
responder chain, and returns the view that accepted the touch, or null
when every view declines.  The source notes the pane returns the target
without re-sending touchStart when it is already the touch responder;
that shortcut affects no modelled observable.

cbThrows says whether the view's touchEnd/touchCancelled callback raises
an exception when invoked. -/
structure ViewConfig where
  acceptsMultitouch : ViewId → Bool
  nextResponder : ViewId → Option ViewId
  capturesTouch : ViewId → Bool
  cbThrows : ViewId → Bool
  sendTouchStart : JRef → JRef

/-- Convert an optional view to the JRef the source reads from an
out-of-range array index (undefined) or an in-range element. -/
def jrefOfOpt : Option ViewId → JRef
  | none => .undef
  | some v => .view v

/-- stack[i] for a possibly negative JavaScript index: undefined when out
of range. -/
def jrefIdx (l : List ViewId) (i : Int) : JRef :=
  if i < 0 then .undef else jrefOfOpt (l.get? i.toNat)

/-- SC.CoreSet.add: append the element if it is not already present. -/
def coreAdd (l : List Nat) (x : Nat) : List Nat :=
  if x ∈ l then l else l ++ [x]

/-- Apply an update to the registry record of one touch identifier. -/
def RState.updateTouch (s : RState) (tid : Nat) (f : TouchState → TouchState) : RState :=
  { s with touches := fun u => if u = tid then (s.touches u).map f else s.touches u }

/-- Append one delivered notification to the trace. -/
def RState.addTrace (s : RState) (e : Ev) : RState :=
  { s with trace := s.trace ++ [e] }

/-- The responder stack of a touch, empty when absent (for stating
properties about concrete states). -/
def stackOf (s : RState) (tid : Nat) : List ViewId :=
  ((s.touches tid).bind (fun t => t.touchResponders)).getD []

/-- touchesForView: the set of touches registered to the view, undefined
(none) if the view has no index entry. -/
def touchesForView (s : RState) (v : ViewId) : Option (List Nat) :=
  (s.touchedViews v).map (fun e => e.touches)

/-- Result record of averagedTouchesForView. -/
structure AvgTouches where
  x : ℚ
  y : ℚ
  d : JSVal
  touchCount : Nat
  deriving DecidableEq

/-- averagedTouchesForView: average position of the view's touches and the
average distance of each touch from that average.  Translated from the
source: the accumulators ax and ay are initialised to 0, but the distance
accumulator ad is declared without an initial value (undefined), so the
first ad += ... produces NaN.  sqrtQ models Math.pow(argument, 0.5); its
value never matters because ad is already NaN by the time it is added.
The CoreSet holds the touch objects themselves; here it holds their
identifiers, resolved through the registry (toArray). -/
def averagedTouchesForView (sqrtQ : ℚ → ℚ) (s : RState) (v : ViewId) : AvgTouches :=
  match touchesForView s v with
  | none => ⟨0, 0, .num 0, 0⟩
  | some ids =>
    if ids.length = 0 then ⟨0, 0, .num 0, 0⟩
    else
      let touches := ids.filterMap (fun i => s.touches i)
      let len : ℚ := touches.length
      let ax := (touches.map (fun t => t.pageX)).sum / len
      let ay := (touches.map (fun t => t.pageY)).sum / len
      let ad := touches.foldl
        (fun ad t =>
          jsAdd ad (.num (sqrtQ
            (|t.pageX - ax| * |t.pageX - ax| + |t.pageY - ay| * |t.pageY - ay|))))
        JSVal.undef
      ⟨ax, ay, jsDiv ad (.num len), touches.length⟩

/-- assignTouch: create the view's index entry if needed (setting the
view's hasTouch property to YES exactly then), record the view on the
touch, add the touch to the entry's set and increment its touchCount.
The create-then-add steps of the source are collapsed: a fresh entry with
the touch added is the singleton set with count 1. -/
def assignTouch (s : RState) (tid : Nat) (v : ViewId) : RState :=
  match s.touchedViews v with
  | none =>
    { s with
      touchedViews := fun w => if w = v then some ⟨[tid], 1⟩ else s.touchedViews w,
      hasTouch := fun w => if w = v then true else s.hasTouch w,
      trace := s.trace ++ [.setHasTouch v true],
      touches := fun u =>
        if u = tid then (s.touches u).map (fun t => { t with view := some v })
        else s.touches u }
  | some e =>
    { s with
      touchedViews := fun w =>
        if w = v then some ⟨coreAdd e.touches tid, e.touchCount + 1⟩ else s.touchedViews w,
      touches := fun u =>
        if u = tid then (s.touches u).map (fun t => { t with view := some v })
        else s.touches u }

/-- unassignTouch: no-op when the touch has no view; otherwise remove the
touch from its view's entry and decrement the count, deleting the entry
and setting hasTouch to NO when the count drops below 1, and finally
clear the touch's view.  A touch whose view has no entry would make the
source fail on the undefined entry; such states are never produced by the
operations here, and the embedding leaves the state unchanged. -/
def unassignTouch (s : RState) (tid : Nat) : RState :=
  match s.touches tid with
  | none => s
  | some ts =>
    match ts.view with
    | none => s
    | some v =>
      match s.touchedViews v with
      | none => s
      | some e =>
        let e1 : ViewEntry := ⟨e.touches.erase tid, e.touchCount - 1⟩
        if e1.touchCount < 1 then
          { s with
            touchedViews := fun w => if w = v then none else s.touchedViews w,
            hasTouch := fun w => if w = v then false else s.hasTouch w,
            trace := s.trace ++ [.setHasTouch v false],
            touches := fun u =>
              if u = tid then some { ts with view := none } else s.touches u }
        else
          { s with
            touchedViews := fun w => if w = v then some e1 else s.touchedViews w,
            touches := fun u =>
              if u = tid then some { ts with view := none } else s.touches u }

/-- The stack-popping loop of makeTouchResponder, acting on the reversed
stack (top first): while the top exists and differs from the confirmed
responder, send touchCancelled to it unless the view neither accepts
multitouch nor is free of other touches, pop it, and update the
touchResponder/nextTouchResponder pointers to the new top and second
element.  Returns the final state and the remaining reversed stack. -/
def popLoopRev (cfg : ViewConfig) (tid : Nat) (responder : JRef) :
    RState → List ViewId → RState × List ViewId
  | s, [] => (s, [])
  | s, l :: rest =>
    if JRef.view l = responder then (s, l :: rest)
    else
      let s1 :=
        if cfg.acceptsMultitouch l || (touchesForView s l).isNone then
          s.addTrace (.touchCancelled l tid)
        else s
      let s2 := s1.updateTouch tid (fun u =>
        { u with touchResponder := jrefOfOpt rest.head?,
                 nextTouchResponder := jrefOfOpt (rest.drop 1).head? })
      popLoopRev cfg tid responder s2 rest

/-- Write the (aliased) stack array back into the touch record. -/
def writeStack (s : RState) (tid : Nat) (os : Option (List ViewId)) : RState :=
  s.updateTouch tid (fun u => { u with touchResponders := os })

/-- makeTouchResponder: the central state transition.  Return unchanged
when the candidate already is the touch responder; offer touchStart (the
offer may settle on a different view or on null); return unchanged when
the confirmed responder already is the touch responder; unassign the
touch; when not stacking, or when the confirmed responder sits in the
stack below the top, pop the stack down to (and excluding) the confirmed
responder with cancellation notifications; finally, when the confirmed
responder is a view, assign the touch to it, push it, and update the
pointer pair.  A touch absent from the registry or whose stack is null
(only after touchend) would make the source fail; the embedding returns
the state unchanged there. -/
def makeTouchResponder (cfg : ViewConfig) (s : RState) (tid : Nat)
    (responder0 : JRef) (shouldStack : Bool) : RState :=
  match s.touches tid with
  | none => s
  | some ts =>
    match ts.touchResponders with
    | none => s
    | some stack =>
      if ts.touchResponder = responder0 then s
      else
        let responder := cfg.sendTouchStart responder0
        if ts.touchResponder = responder then s
        else
          let s1 := unassignTouch s tid
          let popQ : Bool :=
            !shouldStack ||
              ((match responder with
                | .view v => stack.contains v
                | _ => false) &&
               !(jrefOfOpt stack.getLast? = responder))
          let pr :=
            if popQ then
              let p := popLoopRev cfg tid responder s1 stack.reverse
              (p.1, p.2.reverse)
            else (s1, stack)
          match responder with
          | .view rv =>
            let s3 := assignTouch pr.1 tid rv
            let stack3 := pr.2 ++ [rv]
            let s4 := s3.updateTouch tid (fun u =>
              { u with touchResponder := .view rv,
                       nextTouchResponder := jrefIdx stack3 ((stack3.length : Int) - 2) })
            writeStack s4 tid (some stack3)
          | _ => writeStack pr.1 tid (some pr.2)

/-- The responder-chain walk of captureTouch: collect views from the raw
target up to, and excluding, the starting point (none stands for the root
responder itself, which no view equals, so the walk then runs until the
chain ends).  fuel bounds the walk; the source's loop terminates exactly
when the chain reaches the starting point or null. -/
def buildChain (cfg : ViewConfig) : Nat → Option ViewId → Option ViewId → List ViewId
  | 0, _, _ => []
  | _, none, _ => []
  | fuel + 1, some v, startingPoint =>
    if some v = startingPoint then []
    else v :: buildChain cfg fuel (cfg.nextResponder v) startingPoint

/-- The capture walk of captureTouch over the collected chain, in the
order the source iterates it: query each view with captureTouch and make
the first acceptor the responder.  Returns whether some view captured. -/
def captureWalk (cfg : ViewConfig) (tid : Nat) (shouldStack : Bool) :
    RState → List ViewId → RState × Bool
  | s, [] => (s, false)
  | s, v :: rest =>
    let s1 := s.addTrace (.captureQuery v tid)
    if cfg.capturesTouch v then (makeTouchResponder cfg s1 tid (.view v) shouldStack, true)
    else captureWalk cfg tid shouldStack s1 rest

/-- captureTouch: build the chain from the touch's raw target view up to
the starting point, walk it offering the captureTouch query, and fall
back to offering the raw target itself as responder when no view
captures.  The target reference is null when the touch had no target
node. -/
def captureTouch (cfg : ViewConfig) (fuel : Nat) (s : RState) (tid : Nat)
    (startingPoint : Option ViewId) (shouldStack : Bool) : RState :=
  match s.touches tid with
  | none => s
  | some ts =>
    let chain := buildChain cfg fuel ts.targetView startingPoint
    let wr := captureWalk cfg tid shouldStack s chain
    if wr.2 then wr.1
    else
      makeTouchResponder cfg wr.1 tid
        (match ts.targetView with
         | some v => .view v
         | none => .null) shouldStack

/-- Raw touchend/touchcancel event batch: the cancellation flag, the
changed touches (identifier with final page coordinates), and the
timestamp. -/
structure TEvt where
  isCancel : Bool
  changed : List (Nat × ℚ × ℚ)
  timeStamp : ℚ

/-- The responder-stack walk of touchend, over the reversed stack
(innermost first).  act records whether the action variable currently
holds touchCancelled (it starts as the batch kind and is set to
touchCancelled after every delivery).  The third component reports that a
view callback threw, which aborts the batch. -/
def respondersWalk (cfg : ViewConfig) (tid : Nat) :
    RState → Bool → List ViewId → RState × Bool × Bool
  | s, act, [] => (s, act, false)
  | s, act, v :: rest =>
    let s1 := s.addTrace (if act then .touchCancelled v tid else .touchEnd v tid)
    if cfg.cbThrows v then (s1, act, true)
    else respondersWalk cfg tid s1 true rest

/-- Processing of one ending touch inside touchend: update position and
timestamp, unassign from the index, walk the responder stack delivering
end/cancel, then clear the responder fields and delete the touch record
from the registry.  A missing registry record makes the source fail on
the undefined record (reported as a throw); a callback throw aborts
before the clearing and deletion. -/
def touchendOne (cfg : ViewConfig) (evt : TEvt) (s : RState) (act : Bool)
    (c : Nat × ℚ × ℚ) : RState × Bool × Bool :=
  match s.touches c.1 with
  | none => (s, act, true)
  | some _ =>
    let sa := s.updateTouch c.1 (fun u =>
      { u with timeStamp := evt.timeStamp, pageX := c.2.1, pageY := c.2.2 })
    let sb := unassignTouch sa c.1
    let wr :=
      match sb.touches c.1 with
      | some ts2 =>
        match ts2.touchResponder with
        | .view _ => respondersWalk cfg c.1 sb act (ts2.touchResponders.getD []).reverse
        | _ => (sb, act, false)
      | none => (sb, act, false)
    if wr.2.2 then (wr.1, wr.2.1, true)
    else
      let sc := wr.1.updateTouch c.1 (fun u =>
        { u with touchResponders := none, touchResponder := .null,
                 nextTouchResponder := .null })
      (({ sc with touches := fun u => if u = c.1 then none else sc.touches u }),
       wr.2.1, false)

/-- The per-batch loop of touchend.  The action flag is threaded through
the whole batch (the source initialises it once per event and never
resets it between touches).  On a throw the catch handler logs and
returns; its write to the non-existent _touchViews property (the index is
named _touchedViews) changes nothing that is modelled. -/
def touchendLoop (cfg : ViewConfig) (evt : TEvt) :
    RState → Bool → List (Nat × ℚ × ℚ) → RState
  | s, _, [] => s
  | s, act, c :: rest =>
    let r := touchendOne cfg evt s act c
    if r.2.2 then r.1
    else touchendLoop cfg evt r.1 r.2.1 rest

/-- touchend: process every changed touch of the batch, starting with the
action determined by the batch kind. -/
def touchend (cfg : ViewConfig) (s : RState) (evt : TEvt) : RState :=
  touchendLoop cfg evt s evt.isCancel evt.changed

/-- touchcancel: touchend with the cancellation flag forced on. -/
def touchcancel (cfg : ViewConfig) (s : RState) (evt : TEvt) : RState :=
  touchend cfg s { evt with isCancel := true }

/-- The per-gesture scroll touch status consumed by decelerateAnimation. -/
structure ScrollTouchStatus where
  decelerationVelocityY : ℚ
  decelerationFromEdge : ℚ
  accelerationFromEdge : ℚ
  deriving DecidableEq

/-- The scroll view state decelerateAnimation reads and writes: the
fast-path vertical offset, the maximum offset, the gesture status,
whether another 10ms tick was scheduled, and the offset committed through
the normal property-change path (none until the integrator finishes). -/
structure ScrollState where
  vOffset : ℚ
  maxOffset : ℚ
  touch : ScrollTouchStatus
  timeoutScheduled : Bool
  committedOffset : Option ℚ
  deriving DecidableEq

/-- One tick of decelerateAnimation.  decayFactor stands for
Math.pow(0.950, t / 10) for the elapsed time t of this tick.  The
position advances by the velocity; the velocity decays and is then
corrected when the new position is past an edge; when the absolute
velocity is below 1 and the position is strictly between 0 and the
maximum offset, the tick commits the offset through the property path and
schedules nothing, otherwise it schedules the next tick. -/
def decelerateAnimation (decayFactor : ℚ) (s : ScrollState) : ScrollState :=
  let newY := s.vOffset + s.touch.decelerationVelocityY
  let s1 := { s with vOffset := newY }
  let vel0 := s1.touch.decelerationVelocityY * decayFactor
  let vel :=
    if newY < 0 then
      if vel0 < 0 then vel0 + (-newY * s1.touch.decelerationFromEdge)
      else -newY * s1.touch.accelerationFromEdge
    else if newY > s1.maxOffset then
      if vel0 > 0 then vel0 - ((newY - s1.maxOffset) * s1.touch.decelerationFromEdge)
      else -((newY - s1.maxOffset) * s1.touch.accelerationFromEdge)
    else vel0
  let s2 := { s1 with touch := { s1.touch with decelerationVelocityY := vel } }
  if |vel| < 1 ∧ newY > 0 ∧ newY < s2.maxOffset then
    { s2 with timeoutScheduled := false, committedOffset := some s2.vOffset }
  else
    { s2 with timeoutScheduled := true }

/-- Bare index operations, for stating properties of call sequences
against assignTouch/unassignTouch. -/
inductive TOp where
  | assign (t : Nat) (v : ViewId)
  | unassign (t : Nat)
  deriving DecidableEq

/-- Apply one index operation. -/
def stepOp (s : RState) : TOp → RState
  | .assign t v => assignTouch s t v
  | .unassign t => unassignTouch s t

/-- Run a sequence of index operations. -/
def runOps (s : RState) : List TOp → RState
  | [] => s
  | op :: rest => runOps (stepOp s op) rest

/-- Well-formedness of one operation against the current state: assigned
touches are registered and not currently assigned to any view (the engine
always unassigns before assigning); unassigned touches are registered. -/
def wfStep (s : RState) : TOp → Bool
  | .assign t _ =>
    match s.touches t with
    | some ts => ts.view.isNone
    | none => false
  | .unassign t => (s.touches t).isSome

/-- Well-formedness of a whole operation sequence. -/
def wfOps (s : RState) : List TOp → Bool
  | [] => true
  | op :: rest => wfStep s op && wfOps (stepOp s op) rest

/-- The hasTouch writes issued to one view, in order. -/
def flipsFor (v : ViewId) : List Ev → List Bool
  | [] => []
  | .setHasTouch w b :: rest => if w = v then b :: flipsFor v rest else flipsFor v rest
  | _ :: rest => flipsFor v rest

/-- A flag-write sequence alternates starting from the given current
value: each write is the negation of the previous value. -/
def alternating : Bool → List Bool → Bool
  | _, [] => true
  | c, b :: rest => (b == !c) && alternating b rest

/-- Last element of a flag-write sequence, or the initial value. -/
def lastD (c : Bool) (l : List Bool) : Bool :=
  l.getLast?.getD c

/-- The view-touch index invariant: a view's entry exists exactly when its
hasTouch flag is on; entries are non-empty, duplicate-free and carry the
correct count; touch records and entries point at each other coherently;
and the hasTouch writes to every view alternate, starting with an
activation from the initial off state, with the last write equal to the
current flag (so the flag toggles exactly once per transition in each
direction). -/
def InvC3 (s : RState) : Prop :=
  (∀ v, (s.touchedViews v).isSome = s.hasTouch v)
  ∧ (∀ v e, s.touchedViews v = some e →
      e.touches ≠ [] ∧ e.touchCount = (e.touches.length : Int) ∧ e.touches.Nodup)
  ∧ (∀ t ts v, s.touches t = some ts → ts.view = some v →
      ∃ e, s.touchedViews v = some e ∧ t ∈ e.touches)
  ∧ (∀ v e t, s.touchedViews v = some e → t ∈ e.touches →
      ∃ ts, s.touches t = some ts ∧ ts.view = some v)
  ∧ (∀ v, alternating false (flipsFor v s.trace) = true
      ∧ lastD false (flipsFor v s.trace) = s.hasTouch v)

/-- A fresh SC.Touch record at the origin with empty responder stack. -/
def freshTouch : TouchState :=
  { targetView := none, view := none, touchResponder := .undef,
    nextTouchResponder := .undef, touchResponders := some [],
    pageX := 0, pageY := 0, startX := 0, startY := 0, timeStamp := 0 }

/-- Initial root responder state holding fresh touch records for the given
identifiers: empty index, all hasTouch flags off, empty trace. -/
def initState (reg : List Nat) : RState :=
  { touchedViews := fun _ => none,
    touches := fun t => if t ∈ reg then some freshTouch else none,
    hasTouch := fun _ => false,
    trace := [] }

/-- Views that accept every touchStart offer themselves, capture nothing,
accept no multitouch, and never throw. -/
def cfgPlain : ViewConfig :=
  { acceptsMultitouch := fun _ => false,
    nextResponder := fun _ => none,
    capturesTouch := fun _ => false,
    cbThrows := fun _ => false,
    sendTouchStart := fun r => r }

/-- Touch 1 made responder of view 10 (A). -/
def c1s1 : RState := makeTouchResponder cfgPlain (initState [1]) 1 (.view 10) false

/-- Then stacked onto view 20 (B): stack A, B. -/
def c1s2 : RState := makeTouchResponder cfgPlain c1s1 1 (.view 20) true

/-- Then handed back to A with shouldStack on: the pop phase. -/
def c1s3 : RState := makeTouchResponder cfgPlain c1s2 1 (.view 10) true

/-- Chain for the capture scenario: target view 1 has parent 2; both views
return YES to the captureTouch query. -/
def cfgCapture : ViewConfig :=
  { acceptsMultitouch := fun _ => false,
    nextResponder := fun v => if v = 1 then some 2 else none,
    capturesTouch := fun _ => true,
    cbThrows := fun _ => false,
    sendTouchStart := fun r => r }

/-- Registry holding touch 1 whose raw target view is view 1. -/
def capState : RState :=
  { touchedViews := fun _ => none,
    touches := fun t => if t = 1 then some { freshTouch with targetView := some 1 } else none,
    hasTouch := fun _ => false,
    trace := [] }

/-- The capture scenario run from the root boundary, unstacked. -/
def capRun : RState := captureTouch cfgCapture 5 capState 1 none false

/-- A touch record owned by the given view with a one-element responder
stack. -/
def ownedTouch (v : ViewId) : TouchState :=
  { freshTouch with view := some v, touchResponder := JRef.view v, touchResponders := some [v] }

/-- View 10 accepts multitouch; every view accepts touchStart offers. -/
def cfgMulti : ViewConfig :=
  { cfgPlain with acceptsMultitouch := fun v => v = 10 }

/-- Touches 1 and 2 both assigned to view 10; each has responder stack
consisting of view 10. -/
def multiState : RState :=
  { touchedViews := fun w => if w = 10 then some ⟨[1, 2], 2⟩ else none,
    touches := fun t => if t = 1 ∨ t = 2 then some (ownedTouch 10) else none,
    hasTouch := fun w => w = 10,
    trace := [] }

/-- Reassigning touch 1 to view 99 unstacked pops view 10 while touch 2 is
still assigned to it. -/
def multiRun : RState := makeTouchResponder cfgMulti multiState 1 (.view 99) false

/-- Touches 1 and 2 each owned by a single responder (views 10 and 20). -/
def endState : RState :=
  { touchedViews := fun w =>
      if w = 10 then some ⟨[1], 1⟩ else if w = 20 then some ⟨[2], 1⟩ else none,
    touches := fun t =>
      if t = 1 then some (ownedTouch 10) else if t = 2 then some (ownedTouch 20) else none,
    hasTouch := fun w => w = 10 ∨ w = 20,
    trace := [] }

/-- A touchend batch (not a cancellation) ending touches 1 and 2. -/
def endEvt : TEvt := { isCancel := false, changed := [(1, 0, 0), (2, 0, 0)], timeStamp := 0 }

/-- Running the two-touch end batch. -/
def endRun : RState := touchend cfgPlain endState endEvt

/-- Every touchStart offer is declined (the pane's sendEvent returns
null). -/
def cfgDecline : ViewConfig :=
  { cfgPlain with sendTouchStart := fun _ => .null }

/-- Touch 1 owned by view 30 (stack of one). -/
def declState : RState :=
  { touchedViews := fun w => if w = 30 then some ⟨[1], 1⟩ else none,
    touches := fun t => if t = 1 then some (ownedTouch 30) else none,
    hasTouch := fun w => w = 30,
    trace := [] }

/-- A declined unstacked offer of view 40 for touch 1. -/
def declRun : RState := makeTouchResponder cfgDecline declState 1 (.view 40) false

/-- View 10's touchEnd/touchCancelled callback throws. -/
def cfgThrow : ViewConfig :=
  { cfgPlain with cbThrows := fun v => v = 10 }

/-- Touch 1 owned by view 10 (stack of one). -/
def throwState : RState :=
  { touchedViews := fun w => if w = 10 then some ⟨[1], 1⟩ else none,
    touches := fun t => if t = 1 then some (ownedTouch 10) else none,
    hasTouch := fun w => w = 10,
    trace := [] }

/-- A single-touch end batch whose only responder callback throws. -/
def throwEvt : TEvt := { isCancel := false, changed := [(1, 0, 0)], timeStamp := 0 }

/-- Running the throwing end batch. -/
def throwRun : RState := touchend cfgThrow throwState throwEvt

/-- View 1 with the single touch 1 at the origin, for the averaging
computation. -/
def avgState : RState :=
  { touchedViews := fun w => if w = 1 then some ⟨[1], 1⟩ else none,
    touches := fun t =>
      if t = 1 then some { freshTouch with view := some 1 } else none,
    hasTouch := fun w => w = 1,
    trace := [] }

/-- Scroll state at rest on the top edge: offset 0, maximum offset 100,
deceleration velocity 0, resistance constants as set by
beginTouchTracking. -/
def edgeScroll : ScrollState :=
  { vOffset := 0, maxOffset := 100,
    touch := { decelerationVelocityY := 0, decelerationFromEdge := 1 / 20,
               accelerationFromEdge := 2 / 25 },
    timeoutScheduled := false, committedOffset := none }

/-- C1: popping B (view 20) off the stack of touch 1 via
makeTouchResponder with shouldStack on does deliver exactly one
touchCancelled to B, but it leaves the stack as A, A (view 10 twice) with
nextTouchResponder equal to A rather than the stack A with
nextTouchResponder null claimed: the pop loop stops with A still on the
stack and the push phase pushes A again. -/
theorem claim_C1 :
    stackOf c1s3 1 = [10, 10]
    ∧ (c1s3.touches 1).map (fun t => t.touchResponder) = some (.view 10)
    ∧ (c1s3.touches 1).map (fun t => t.nextTouchResponder) = some (.view 10)
    ∧ c1s3.trace.count (Ev.touchCancelled 20 1) = 1
    ∧ c1s3.trace =
        [Ev.setHasTouch 10 true, Ev.setHasTouch 10 false, Ev.setHasTouch 20 true,
         Ev.setHasTouch 20 false, Ev.touchCancelled 20 1, Ev.setHasTouch 10 true] := by
  decide

/-- C2: the responder stack of touch 1 reached by the hand-back sequence
(make A responder, stack onto B, hand back to A) contains view 10 twice,
so the no-duplicates invariant fails on a reachable state. -/
theorem claim_C2 :
    stackOf c1s3 1 = [10, 10] ∧ ¬ (stackOf c1s3 1).Nodup := by
  decide

/-- C3 counterexample: after assigning touch 1 to view 5 twice and
unassigning it once (bare index calls), view 5's hasTouch indicator is
still true although its touch set is empty, because the touchCount (2)
disagrees with the deduplicating set (1 element): the claim's invariant
fails for unrestricted assign/unassign sequences. -/
theorem claim_C3_counterexample :
    (runOps (initState [1]) [.assign 1 5, .assign 1 5, .unassign 1]).hasTouch 5 = true
    ∧ touchesForView (runOps (initState [1]) [.assign 1 5, .assign 1 5, .unassign 1]) 5
        = some [] := by
  decide

/-- C4: with target view 1 whose parent is view 2 and both views capturing,
captureTouch queries the target view 1 first (the chain is walked
bottom-up, not top-down) and makes it the responder; the outermost
ancestor 2 is never queried. -/
theorem claim_C4 :
    capRun.trace = [Ev.captureQuery 1 1, Ev.setHasTouch 1 true]
    ∧ (capRun.touches 1).map (fun t => t.touchResponder) = some (.view 1)
    ∧ Ev.captureQuery 2 1 ∉ capRun.trace := by
  decide

/-- C5 counterexample: view 10 accepts multitouch and still has touch 2
assigned after touch 1 is unassigned, yet when it is popped from touch
1's stack it does receive touchCancelled (the source notifies exactly the
views that accept multitouch or have no remaining touches). -/
theorem claim_C5_counterexample :
    cfgMulti.acceptsMultitouch 10 = true
    ∧ touchesForView (unassignTouch multiState 1) 10 = some [2]
    ∧ Ev.touchCancelled 10 1 ∈ multiRun.trace := by
  decide

/-- C6: in a two-touch non-cancellation end batch, the first touch's
responder receives touchEnd but the second touch's innermost responder
receives touchCancelled, because the action variable is initialised once
per batch and is left as touchCancelled after the first touch's walk. -/
theorem claim_C6 :
    endRun.trace =
      [Ev.setHasTouch 10 false, Ev.touchEnd 10 1, Ev.setHasTouch 20 false,
       Ev.touchCancelled 20 2]
    ∧ Ev.touchEnd 20 2 ∉ endRun.trace := by
  decide

/-- C7 counterexample: with every touchStart offer declined, the unstacked
call changes state: touch 1 is unassigned from view 30 (hasTouch drops to
false), the stack is popped to empty, and a touchCancelled notification
is sent to view 30 - the claim that nothing changes fails. -/
theorem claim_C7_counterexample :
    declState.hasTouch 30 = true
    ∧ declRun.hasTouch 30 = false
    ∧ stackOf declState 1 = [30]
    ∧ stackOf declRun 1 = []
    ∧ Ev.touchCancelled 30 1 ∈ declRun.trace := by
  decide

/-- C8 counterexample: the only responder's touchEnd callback throws, the
batch aborts, and touch 1's record is still in the _touches registry
after touchend. -/
theorem claim_C8_counterexample :
    (throwRun.touches 1).isSome = true
    ∧ throwRun.trace = [Ev.setHasTouch 10 false, Ev.touchEnd 10 1] := by
  decide


/-- C9: for a view with exactly one touch at the origin the source returns
d = NaN (the accumulator ad is declared without an initial value, and
undefined plus a number is NaN), not the mean distance 0 the claim
states; x, y and touchCount are as claimed. -/
theorem claim_C9 :
    averagedTouchesForView (fun q => q) avgState 1 = ⟨0, 0, JSVal.nan, 1⟩
    ∧ averagedTouchesForView (fun q => q) avgState 1 ≠ ⟨0, 0, JSVal.num 0, 1⟩ := by
  simp only [averagedTouchesForView, touchesForView, avgState, freshTouch]
  norm_num [List.filterMap_cons, List.foldl_cons, jsAdd, jsDiv]
  decide

/-- C10 counterexample: with deceleration velocity 0 and the offset 0
lying in the closed interval from 0 to the maximum offset 100, the tick
does not terminate: the termination test requires the position to be
strictly positive, so another tick is scheduled and nothing is
committed. -/
theorem claim_C10_counterexample :
    edgeScroll.touch.decelerationVelocityY = 0
    ∧ 0 ≤ edgeScroll.vOffset ∧ edgeScroll.vOffset ≤ edgeScroll.maxOffset
    ∧ (decelerateAnimation (1 / 2) edgeScroll).timeoutScheduled = true
    ∧ (decelerateAnimation (1 / 2) edgeScroll).committedOffset = none := by
  norm_num [decelerateAnimation, edgeScroll]

/-- C10 (amended): a deceleration tick with velocity 0 and position
strictly between 0 and the maximum offset terminates at once: the final
offset is committed through the property-change path, no further tick is
scheduled, and position and velocity are unchanged.  (At a position
exactly on an edge the strict termination test fails and another tick is
scheduled instead.) -/
theorem claim_C10_amended (decayFactor : ℚ) (s : ScrollState)
    (hv : s.touch.decelerationVelocityY = 0)
    (h0 : 0 < s.vOffset) (hm : s.vOffset < s.maxOffset) :
    (decelerateAnimation decayFactor s).timeoutScheduled = false
    ∧ (decelerateAnimation decayFactor s).committedOffset = some s.vOffset
    ∧ (decelerateAnimation decayFactor s).vOffset = s.vOffset
    ∧ (decelerateAnimation decayFactor s).touch.decelerationVelocityY = 0 := by
  have n1 : ¬ s.vOffset < 0 := by linarith
  have n2 : ¬ s.maxOffset < s.vOffset := by linarith
  simp [decelerateAnimation, hv, n1, n2, h0, hm, abs_zero, zero_lt_one]

/-- Scroll state at rest strictly inside the scrollable range. -/
def midScroll : ScrollState := { edgeScroll with vOffset := 50 }

/-- Witness for the amended C10 theorem at the concrete state midScroll. -/
theorem claim_C10_witness :
    midScroll.touch.decelerationVelocityY = 0
    ∧ 0 < midScroll.vOffset ∧ midScroll.vOffset < midScroll.maxOffset
    ∧ ((decelerateAnimation 1 midScroll).timeoutScheduled = false
       ∧ (decelerateAnimation 1 midScroll).committedOffset = some midScroll.vOffset
       ∧ (decelerateAnimation 1 midScroll).vOffset = midScroll.vOffset
       ∧ (decelerateAnimation 1 midScroll).touch.decelerationVelocityY = 0) :=
  ⟨rfl, by norm_num [midScroll, edgeScroll], by norm_num [midScroll, edgeScroll],
   claim_C10_amended 1 midScroll rfl (by norm_num [midScroll, edgeScroll])
     (by norm_num [midScroll, edgeScroll])⟩

/-- The pop loop of makeTouchResponder never changes the view-touch
index: it only appends notifications and rewrites the touch's responder
pointers. -/
theorem popLoopRev_touchedViews (cfg : ViewConfig) (tid : Nat) (responder : JRef) :
    ∀ (rev : List ViewId) (s : RState),
      ((popLoopRev cfg tid responder s rev).1).touchedViews = s.touchedViews := by
  intro rev
  induction rev with
  | nil => intro s; rfl
  | cons l rest ih =>
    intro s
    by_cases h : JRef.view l = responder
    · simp [popLoopRev, h]
    · simp only [popLoopRev, if_neg h]
      rw [ih]
      split <;> rfl

/-- C5 (amended): during the stack-popping phase of makeTouchResponder, a
popped view is sent touchCancelled exactly when it accepts multitouch or
has no touches left assigned to it; equivalently, the one kind of popped
view that is skipped is a view that does not accept multitouch but still
has other touches assigned (the view-touch index does not change during
the loop, so the condition reads the state the loop started in). -/
theorem claim_C5_amended (cfg : ViewConfig) (tid : Nat) (responder : JRef) :
    ∀ (rev : List ViewId) (s : RState),
      (popLoopRev cfg tid responder s rev).1.trace =
        s.trace ++
          (((rev.takeWhile (fun v => !(JRef.view v == responder))).filter
              (fun v => cfg.acceptsMultitouch v || (touchesForView s v).isNone)).map
            (fun v => Ev.touchCancelled v tid)) := by
  intro rev
  induction rev with
  | nil => intro s; simp [popLoopRev]
  | cons l rest ih =>
    intro s
    by_cases h : JRef.view l = responder
    · have hb : (JRef.view l == responder) = true := by
        simp [h]
      simp [popLoopRev, h, List.takeWhile_cons, hb]
    · have hb : (JRef.view l == responder) = false := by
        simp [h]
      by_cases hc : (cfg.acceptsMultitouch l || (touchesForView s l).isNone) = true
      · simp only [popLoopRev, if_neg h, if_pos hc]
        rw [ih]
        have hcp : cfg.acceptsMultitouch l = true ∨ s.touchedViews l = none := by
          by_cases h1 : cfg.acceptsMultitouch l = true
          · exact Or.inl h1
          · right
            simp only [touchesForView, Bool.or_eq_true] at hc
            rcases hc with hc | hc
            · exact absurd hc h1
            · rcases h2 : s.touchedViews l with _ | e
              · rfl
              · rw [h2] at hc
                simp at hc
        simp [List.takeWhile_cons, hb, hcp, RState.updateTouch, RState.addTrace,
          List.filter_cons, touchesForView, List.append_assoc]
      · simp only [popLoopRev, if_neg h, if_neg hc]
        rw [ih]
        have hcp : ¬ (cfg.acceptsMultitouch l = true ∨ s.touchedViews l = none) := by
          intro hor
          apply hc
          rcases hor with h1 | h1
          · simp [h1]
          · simp [touchesForView, h1]
        simp [List.takeWhile_cons, hb, hcp, RState.updateTouch,
          List.filter_cons, touchesForView]

/-- C7 (amended): when the touchStart offer is declined (the offer
resolves to null), the call is not a no-op: the touch is still unassigned
from the view-touch index; beyond that, with shouldStack true the
responder stack and pointers stay as they were, while with shouldStack
false the whole stack is popped with cancellation notifications per the
multitouch rule and the touch is left with no responder; no new responder
is assigned in either case. -/
theorem claim_C7_amended (cfg : ViewConfig) (s : RState) (tid : Nat) (r : JRef)
    (ss : Bool) (ts : TouchState) (stack : List ViewId)
    (h1 : s.touches tid = some ts)
    (h2 : ts.touchResponders = some stack)
    (h3 : ts.touchResponder ≠ r)
    (h4 : cfg.sendTouchStart r = JRef.null)
    (h5 : ts.touchResponder ≠ JRef.null) :
    makeTouchResponder cfg s tid r ss =
      (if ss then writeStack (unassignTouch s tid) tid (some stack)
       else
         writeStack (popLoopRev cfg tid JRef.null (unassignTouch s tid) stack.reverse).1 tid
           (some ((popLoopRev cfg tid JRef.null (unassignTouch s tid) stack.reverse).2.reverse))) := by
  cases ss <;>
    simp [makeTouchResponder, h1, h2, h4, if_neg h3, if_neg h5]

/-- Witness for the amended C7 theorem: the declined stacked offer of view
40 for touch 1 owned by view 30 reduces to the bare unassignment. -/
theorem claim_C7_witness :
    declState.touches 1 = some (ownedTouch 30)
    ∧ (ownedTouch 30).touchResponders = some [30]
    ∧ (ownedTouch 30).touchResponder ≠ JRef.view 40
    ∧ cfgDecline.sendTouchStart (JRef.view 40) = JRef.null
    ∧ (ownedTouch 30).touchResponder ≠ JRef.null
    ∧ makeTouchResponder cfgDecline declState 1 (JRef.view 40) true =
        (if true then writeStack (unassignTouch declState 1) 1 (some [30])
         else
           writeStack
             (popLoopRev cfgDecline 1 JRef.null (unassignTouch declState 1) [30].reverse).1 1
             (some ((popLoopRev cfgDecline 1 JRef.null
               (unassignTouch declState 1) [30].reverse).2.reverse))) :=
  ⟨by decide, by decide, by decide, rfl, by decide,
   claim_C7_amended cfgDecline declState 1 (JRef.view 40) true (ownedTouch 30) [30]
     (by decide) (by decide) (by decide) rfl (by decide)⟩

/-- The responders walk returns no throw when no view callback throws. -/
theorem respondersWalk_no_throw (cfg : ViewConfig) (tid : Nat)
    (hnt : ∀ v, cfg.cbThrows v = false) :
    ∀ (l : List ViewId) (s : RState) (act : Bool),
      (respondersWalk cfg tid s act l).2.2 = false := by
  intro l
  induction l with
  | nil => intro s act; rfl
  | cons v rest ih =>
    intro s act
    simp [respondersWalk, hnt v, ih]

/-- The responders walk only appends to the trace; the touch registry is
untouched. -/
theorem respondersWalk_touches (cfg : ViewConfig) (tid : Nat) :
    ∀ (l : List ViewId) (s : RState) (act : Bool),
      ((respondersWalk cfg tid s act l).1).touches = s.touches := by
  intro l
  induction l with
  | nil => intro s act; rfl
  | cons v rest ih =>
    intro s act
    by_cases h : cfg.cbThrows v = true
    · simp [respondersWalk, h, RState.addTrace]
    · simp only [respondersWalk]
      rw [if_neg h, ih]
      rfl

/-- unassignTouch changes no registry record other than the given
touch's. -/
theorem unassignTouch_touches_other (s : RState) (tid i : Nat) (h : i ≠ tid) :
    (unassignTouch s tid).touches i = s.touches i := by
  unfold unassignTouch
  rcases h1 : s.touches tid with _ | ts
  · rfl
  · rcases h2 : ts.view with _ | v
    · simp [h2]
    · rcases h3 : s.touchedViews v with _ | e
      · simp [h2, h3]
      · by_cases h4 : e.touchCount - 1 < 1 <;> simp [h2, h3, h4, h]

/-- touchendOne changes no registry record other than the processed
touch's. -/
theorem touchendOne_touches_other (cfg : ViewConfig) (evt : TEvt) (s : RState)
    (act : Bool) (c : Nat × ℚ × ℚ) (i : Nat) (h : i ≠ c.1) :
    ((touchendOne cfg evt s act c).1).touches i = s.touches i := by
  unfold touchendOne
  rcases h1 : s.touches c.1 with _ | ts
  · rfl
  · simp only []
    generalize hsa : s.updateTouch c.1 _ = sa
    have ea : sa.touches i = s.touches i := by
      rw [← hsa]; simp [RState.updateTouch, h]
    generalize hsb : unassignTouch sa c.1 = sb
    have eb : sb.touches i = s.touches i := by
      rw [← hsb, unassignTouch_touches_other sa c.1 i h, ea]
    rcases h2 : sb.touches c.1 with _ | ts2
    · simp [h2, h, RState.updateTouch, eb]
    · rcases h3 : ts2.touchResponder with _ | _ | v
      · simp [h2, h3, h, RState.updateTouch, eb]
      · simp [h2, h3, h, RState.updateTouch, eb]
      · simp only [h2, h3]
        generalize hw : respondersWalk cfg c.1 sb act (ts2.touchResponders.getD []).reverse = w
        have ew : w.1.touches i = s.touches i := by
          rw [← hw, respondersWalk_touches, eb]
        by_cases h5 : w.2.2 = true <;> simp [h5, h, RState.updateTouch, ew]

/-- When no callback throws, touchendOne removes the processed touch from
the registry and reports no throw. -/
theorem touchendOne_deletes (cfg : ViewConfig) (evt : TEvt) (s : RState)
    (act : Bool) (c : Nat × ℚ × ℚ)
    (hnt : ∀ v, cfg.cbThrows v = false) (hreg : (s.touches c.1).isSome = true) :
    ((touchendOne cfg evt s act c).1).touches c.1 = none
    ∧ (touchendOne cfg evt s act c).2.2 = false := by
  unfold touchendOne
  rcases h1 : s.touches c.1 with _ | ts
  · rw [h1] at hreg
    simp at hreg
  · rcases h2 : (unassignTouch (s.updateTouch c.1 (fun u =>
        { u with timeStamp := evt.timeStamp, pageX := c.2.1, pageY := c.2.2 })) c.1).touches c.1
      with _ | ts2
    all_goals dsimp only
    · rw [h2]
      simp [RState.updateTouch]
    · rw [h2]
      dsimp only
      rcases h3 : ts2.touchResponder with _ | _ | v
      · simp [RState.updateTouch]
      · simp [RState.updateTouch]
      · simp only [respondersWalk_no_throw cfg c.1 hnt]
        simp [RState.updateTouch]

/-- touchendLoop leaves the registry records of identifiers outside the
batch unchanged. -/
theorem touchendLoop_preserve (cfg : ViewConfig) (evt : TEvt) :
    ∀ (l : List (Nat × ℚ × ℚ)) (s : RState) (act : Bool) (i : Nat),
      i ∉ l.map Prod.fst → (touchendLoop cfg evt s act l).touches i = s.touches i := by
  intro l
  induction l with
  | nil => intro s act i _; rfl
  | cons c rest ih =>
    intro s act i hi
    simp only [List.map_cons, List.mem_cons] at hi
    push_neg at hi
    simp only [touchendLoop]
    by_cases ht : (touchendOne cfg evt s act c).2.2 = true
    · simp [ht, touchendOne_touches_other cfg evt s act c i hi.1]
    · simp only [ht, if_false, Bool.false_eq_true]
      rw [ih _ _ _ hi.2, touchendOne_touches_other cfg evt s act c i hi.1]

/-- C8 (amended): when no view callback in the batch throws and the batch
lists distinct registered touches, every ending touch's record is removed
from the _touches registry by touchend; when a callback does throw, the
batch aborts and the throwing and subsequent records stay registered. -/
theorem claim_C8_amended (cfg : ViewConfig) (s : RState) (evt : TEvt)
    (hnt : ∀ v, cfg.cbThrows v = false)
    (hnd : (evt.changed.map Prod.fst).Nodup)
    (hreg : ∀ c ∈ evt.changed, (s.touches c.1).isSome = true) :
    ∀ c ∈ evt.changed, (touchend cfg s evt).touches c.1 = none := by
  unfold touchend
  suffices h : ∀ (l : List (Nat × ℚ × ℚ)) (s : RState) (act : Bool),
      (l.map Prod.fst).Nodup → (∀ c ∈ l, (s.touches c.1).isSome = true) →
      ∀ c ∈ l, (touchendLoop cfg evt s act l).touches c.1 = none by
    exact h evt.changed s evt.isCancel hnd hreg
  intro l
  induction l with
  | nil =>
    intro s act _ _ c hc
    simp at hc
  | cons c0 rest ih =>
    intro s act hnd2 hreg2 c hc
    simp only [List.map_cons, List.nodup_cons] at hnd2
    obtain ⟨hdel, hthrew⟩ := touchendOne_deletes cfg evt s act c0 hnt (hreg2 c0 (by simp))
    simp only [touchendLoop, hthrew, if_false, Bool.false_eq_true]
    rcases List.mem_cons.mp hc with rfl | hc2
    · rw [touchendLoop_preserve cfg evt rest _ _ c.1 hnd2.1, hdel]
    · have hne : c.1 ≠ c0.1 := by
        intro he
        exact hnd2.1 (he ▸ List.mem_map_of_mem Prod.fst hc2)
      refine ih _ _ hnd2.2 ?_ c hc2
      intro d hd
      have hdd : d.1 ≠ c0.1 := by
        intro hx
        exact hnd2.1 (hx ▸ List.mem_map_of_mem Prod.fst hd)
      rw [touchendOne_touches_other cfg evt s act c0 d.1 hdd]
      exact hreg2 d (List.mem_cons_of_mem c0 hd)

/-- A single-touch non-throwing end batch. -/
def plainEndEvt : TEvt := { isCancel := false, changed := [(1, 0, 0)], timeStamp := 0 }

/-- Witness for the amended C8 theorem: with no throwing callbacks, the
single ending touch is removed from the registry. -/
theorem claim_C8_witness :
    (∀ v, cfgPlain.cbThrows v = false)
    ∧ (plainEndEvt.changed.map Prod.fst).Nodup
    ∧ (∀ c ∈ plainEndEvt.changed, (throwState.touches c.1).isSome = true)
    ∧ (∀ c ∈ plainEndEvt.changed,
        (touchend cfgPlain throwState plainEndEvt).touches c.1 = none) :=
  ⟨fun _ => rfl, by decide, by decide,
   claim_C8_amended cfgPlain throwState plainEndEvt (fun _ => rfl) (by decide) (by decide)⟩

/-- flipsFor distributes over trace concatenation. -/
theorem flipsFor_append (v : ViewId) (l1 l2 : List Ev) :
    flipsFor v (l1 ++ l2) = flipsFor v l1 ++ flipsFor v l2 := by
  induction l1 with
  | nil => simp [flipsFor]
  | cons e rest ih =>
    cases e with
    | setHasTouch w b =>
      by_cases h : w = v <;> simp [flipsFor, h, ih]
    | touchCancelled w t => simp [flipsFor, ih]
    | touchEnd w t => simp [flipsFor, ih]
    | captureQuery w t => simp [flipsFor, ih]

/-- lastD after a cons forgets the earlier default. -/
theorem lastD_cons (c x : Bool) (r : List Bool) : lastD c (x :: r) = lastD x r := by
  cases r with
  | nil => simp [lastD]
  | cons y rr =>
    obtain ⟨z, hz⟩ := Option.isSome_iff_exists.mp
      (List.getLast?_isSome.mpr (List.cons_ne_nil y rr))
    simp [lastD, List.getLast?_cons_cons, hz]

/-- Appending one write to an alternating sequence alternates exactly when
the new write negates the last value. -/
theorem alternating_append_one (c : Bool) (l : List Bool) (b : Bool) :
    alternating c (l ++ [b]) = (alternating c l && (b == !(lastD c l))) := by
  induction l generalizing c with
  | nil => simp [alternating, lastD]
  | cons x r ih =>
    simp only [List.cons_append, alternating, List.append_eq, ih x, lastD_cons,
      Bool.and_assoc]

/-- The last element of a one-write extension. -/
theorem lastD_append_one (c : Bool) (l : List Bool) (b : Bool) :
    lastD c (l ++ [b]) = b := by
  simp [lastD, List.getLast?_concat]

/-- assignTouch preserves the index invariant when the assigned touch is
registered and currently unassigned (as the dispatch engine guarantees:
it always unassigns before assigning). -/
theorem assignTouch_inv (s : RState) (t : Nat) (v : ViewId) (ts : TouchState)
    (hreg : s.touches t = some ts) (hview : ts.view = none) (hinv : InvC3 s) :
    InvC3 (assignTouch s t v) := by
  obtain ⟨I1, I2, I3, I4, I5⟩ := hinv
  unfold assignTouch
  rcases hv : s.touchedViews v with _ | e
  · refine ⟨?_, ?_, ?_, ?_, ?_⟩
    · intro w
      by_cases hw : w = v <;> simp [hw, ← I1 w]
    · intro w e' h
      by_cases hw : w = v
    -- the created entry is the singleton set with count 1
      · subst hw
        simp only [if_true, eq_self_iff_true, Option.some.injEq] at h
        subst h
        refine ⟨by simp, by simp, by simp⟩
      · simp only [if_neg hw] at h
        exact I2 w e' h
    · intro t' ts' w h hvw
      by_cases ht : t' = t
      · subst ht
        simp only [if_true, eq_self_iff_true, hreg, Option.map_some', Option.some.injEq] at h
        subst h
        simp only at hvw
        rcases Option.some_inj.mp hvw with rfl
        exact ⟨⟨[t'], 1⟩, by simp, by simp⟩
      · simp only [if_neg ht] at h
        obtain ⟨e0, he0, hmem⟩ := I3 t' ts' w h hvw
        by_cases hw : w = v
        · subst hw
          rw [hv] at he0
          exact absurd he0 (by simp)
        · exact ⟨e0, by simp [hw, he0], hmem⟩
    · intro w e' t' h hmem
      by_cases hw : w = v
      · subst hw
        simp only [if_true, eq_self_iff_true, Option.some.injEq] at h
        subst h
        simp only [List.mem_singleton] at hmem
        subst hmem
        refine ⟨{ ts with view := some w }, by simp [hreg], rfl⟩
      · simp only [if_neg hw] at h
        obtain ⟨ts'', hts'', hview''⟩ := I4 w e' t' h hmem
        have ht : t' ≠ t := by
          intro hx
          rw [hx, hreg] at hts''
          rcases Option.some_inj.mp hts'' with rfl
          rw [hview] at hview''
          exact Option.noConfusion hview''
        exact ⟨ts'', by simp [ht, hts''], hview''⟩
    · intro w
      rw [flipsFor_append]
      by_cases hw : w = v
      · subst hw
        have hflip : flipsFor w [Ev.setHasTouch w true] = [true] := by
          simp [flipsFor]
        rw [hflip, alternating_append_one, lastD_append_one]
        have hlast : lastD false (flipsFor w s.trace) = s.hasTouch w := (I5 w).2
        have hflag : s.hasTouch w = false := by
          rw [← I1 w, hv]
          rfl
        constructor
        · rw [(I5 w).1, hlast, hflag]
          rfl
        · simp
      · have hflip : flipsFor w [Ev.setHasTouch v true] = [] := by
          simp [flipsFor, Ne.symm hw]
        rw [hflip, List.append_nil]
        refine ⟨(I5 w).1, ?_⟩
        rw [(I5 w).2]
        simp [hw]
  · have htmem : t ∉ e.touches := by
      intro hx
      obtain ⟨ts'', hts'', hview''⟩ := I4 v e t hv hx
      rw [hreg] at hts''
      rcases Option.some_inj.mp hts'' with rfl
      rw [hview] at hview''
      exact Option.noConfusion hview''
    have hadd : coreAdd e.touches t = e.touches ++ [t] := by
      simp [coreAdd, htmem]
    obtain ⟨hne, hcnt, hnd⟩ := I2 v e hv
    refine ⟨?_, ?_, ?_, ?_, ?_⟩
    · intro w
      by_cases hw : w = v
      · subst hw
        simp [← I1 w, hv]
      · simp [hw, ← I1 w]
    · intro w e' h
      by_cases hw : w = v
      · subst hw
        simp only [if_true, eq_self_iff_true, Option.some.injEq] at h
        subst h
        refine ⟨by simp [hadd], ?_, ?_⟩
        · rw [hadd, hcnt]
          simp
        · rw [hadd]
          simp only [List.nodup_append]
          exact ⟨hnd, List.nodup_singleton t, by
            intro a ha hb
            simp only [List.mem_singleton] at hb
            subst hb
            exact htmem ha⟩
      · simp only [if_neg hw] at h
        exact I2 w e' h
    · intro t' ts' w h hvw
      by_cases ht : t' = t
      · subst ht
        simp only [if_true, eq_self_iff_true, hreg, Option.map_some', Option.some.injEq] at h
        subst h
        simp only at hvw
        rcases Option.some_inj.mp hvw with rfl
        exact ⟨⟨coreAdd e.touches t', e.touchCount + 1⟩, by simp, by simp [hadd]⟩
      · simp only [if_neg ht] at h
        obtain ⟨e0, he0, hmem⟩ := I3 t' ts' w h hvw
        by_cases hw : w = v
        · subst hw
          rw [hv] at he0
          rcases Option.some_inj.mp he0 with rfl
          exact ⟨⟨coreAdd e.touches t, e.touchCount + 1⟩, by simp, by
            rw [hadd]
            exact List.mem_append_left _ hmem⟩
        · exact ⟨e0, by simp [hw, he0], hmem⟩
    · intro w e' t' h hmem
      by_cases hw : w = v
      · subst hw
        simp only [if_true, eq_self_iff_true, Option.some.injEq] at h
        subst h
        simp only [hadd, List.mem_append, List.mem_singleton] at hmem
        rcases hmem with hmem | rfl
        · obtain ⟨ts'', hts'', hview''⟩ := I4 w e t' hv hmem
          have ht : t' ≠ t := fun hx => htmem (hx ▸ hmem)
          exact ⟨ts'', by simp [ht, hts''], hview''⟩
        · exact ⟨{ ts with view := some w }, by simp [hreg], rfl⟩
      · simp only [if_neg hw] at h
        obtain ⟨ts'', hts'', hview''⟩ := I4 w e' t' h hmem
        have ht : t' ≠ t := by
          intro hx
          rw [hx, hreg] at hts''
          rcases Option.some_inj.mp hts'' with rfl
          rw [hview] at hview''
          exact Option.noConfusion hview''
        exact ⟨ts'', by simp [ht, hts''], hview''⟩
    · intro w
      exact I5 w

/-- unassignTouch preserves the index invariant unconditionally. -/
theorem unassignTouch_inv (s : RState) (t : Nat) (hinv : InvC3 s) :
    InvC3 (unassignTouch s t) := by
  obtain ⟨I1, I2, I3, I4, I5⟩ := hinv
  unfold unassignTouch
  rcases hr : s.touches t with _ | ts
  · exact ⟨I1, I2, I3, I4, I5⟩
  · dsimp only
    rcases hw : ts.view with _ | v
    · exact ⟨I1, I2, I3, I4, I5⟩
    · dsimp only
      obtain ⟨e, he, htmem⟩ := I3 t ts v hr hw
      rw [he]
      obtain ⟨hne, hcnt, hnd⟩ := I2 v e he
      have hlen : 0 < e.touches.length := List.length_pos_of_mem htmem
      dsimp only
      by_cases hc : e.touchCount - 1 < 1
      · rw [if_pos hc]
        have hlen1 : e.touches.length = 1 := by omega
        obtain ⟨a, ha⟩ := List.length_eq_one.mp hlen1
        have hat : t = a := by
          rw [ha] at htmem
          exact List.mem_singleton.mp htmem
        subst hat
        refine ⟨?_, ?_, ?_, ?_, ?_⟩
        · intro w
          by_cases hwv : w = v <;> simp [hwv, ← I1 w]
        · intro w e' h
          by_cases hwv : w = v
          · subst hwv
            simp at h
          · simp only [if_neg hwv] at h
            exact I2 w e' h
        · intro t2 ts2 w h2 hv2
          by_cases ht2 : t2 = t
          · subst ht2
            simp only [if_true, eq_self_iff_true, Option.some.injEq] at h2
            subst h2
            simp at hv2
          · simp only [if_neg ht2] at h2
            obtain ⟨e0, he0, hmem0⟩ := I3 t2 ts2 w h2 hv2
            by_cases hwv : w = v
            · subst hwv
              rw [he] at he0
              rcases Option.some_inj.mp he0 with rfl
              rw [ha] at hmem0
              simp only [List.mem_singleton] at hmem0
              exact absurd hmem0 ht2
            · exact ⟨e0, by simp [hwv, he0], hmem0⟩
        · intro w e' t2 h2 hmem2
          by_cases hwv : w = v
          · subst hwv
            simp at h2
          · simp only [if_neg hwv] at h2
            obtain ⟨ts2, hts2, hview2⟩ := I4 w e' t2 h2 hmem2
            have ht2 : t2 ≠ t := by
              intro hx
              rw [hx, hr] at hts2
              rcases Option.some_inj.mp hts2 with rfl
              rw [hw] at hview2
              rcases Option.some_inj.mp hview2 with rfl
              exact hwv rfl
            exact ⟨ts2, by simp [ht2, hts2], hview2⟩
        · intro w
          rw [flipsFor_append]
          by_cases hwv : w = v
          · subst hwv
            have hflip : flipsFor w [Ev.setHasTouch w false] = [false] := by
              simp [flipsFor]
            rw [hflip, alternating_append_one, lastD_append_one]
            have hflag : s.hasTouch w = true := by
              rw [← I1 w, he]
              rfl
            constructor
            · rw [(I5 w).1, (I5 w).2, hflag]
              rfl
            · simp
          · have hflip : flipsFor w [Ev.setHasTouch v false] = [] := by
              simp [flipsFor, Ne.symm hwv]
            rw [hflip, List.append_nil]
            refine ⟨(I5 w).1, ?_⟩
            rw [(I5 w).2]
            simp [hwv]
      · rw [if_neg hc]
        have hlen2 : 2 ≤ e.touches.length := by omega
        have herlen : (e.touches.erase t).length = e.touches.length - 1 :=
          List.length_erase_of_mem htmem
        refine ⟨?_, ?_, ?_, ?_, ?_⟩
        · intro w
          by_cases hwv : w = v
          · subst hwv
            simp [← I1 w, he]
          · simp [hwv, ← I1 w]
        · intro w e' h
          by_cases hwv : w = v
          · subst hwv
            simp only [if_true, eq_self_iff_true, Option.some.injEq] at h
            subst h
            refine ⟨?_, ?_, hnd.erase t⟩
            · intro hx
              simp only at hx
              rw [hx] at herlen
              simp only [List.length_nil] at herlen
              omega
            · simp only
              rw [herlen, hcnt]
              omega
          · simp only [if_neg hwv] at h
            exact I2 w e' h
        · intro t2 ts2 w h2 hv2
          by_cases ht2 : t2 = t
          · subst ht2
            simp only [if_true, eq_self_iff_true, Option.some.injEq] at h2
            subst h2
            simp at hv2
          · simp only [if_neg ht2] at h2
            obtain ⟨e0, he0, hmem0⟩ := I3 t2 ts2 w h2 hv2
            by_cases hwv : w = v
            · subst hwv
              rw [he] at he0
              rcases Option.some_inj.mp he0 with rfl
              exact ⟨⟨e.touches.erase t, e.touchCount - 1⟩, by simp,
                (List.mem_erase_of_ne ht2).mpr hmem0⟩
            · exact ⟨e0, by simp [hwv, he0], hmem0⟩
        · intro w e' t2 h2 hmem2
          by_cases hwv : w = v
          · subst hwv
            simp only [if_true, eq_self_iff_true, Option.some.injEq] at h2
            subst h2
            simp only at hmem2
            have ht2 : t2 ≠ t ∧ t2 ∈ e.touches := (hnd.mem_erase_iff).mp hmem2
            obtain ⟨ts2, hts2, hview2⟩ := I4 w e t2 he ht2.2
            exact ⟨ts2, by simp [ht2.1, hts2], hview2⟩
          · simp only [if_neg hwv] at h2
            obtain ⟨ts2, hts2, hview2⟩ := I4 w e' t2 h2 hmem2
            have ht2 : t2 ≠ t := by
              intro hx
              rw [hx, hr] at hts2
              rcases Option.some_inj.mp hts2 with rfl
              rw [hw] at hview2
              rcases Option.some_inj.mp hview2 with rfl
              exact hwv rfl
            exact ⟨ts2, by simp [ht2, hts2], hview2⟩
        · intro w
          exact I5 w

/-- The invariant is preserved along any well-formed operation
sequence. -/
theorem runOps_inv : ∀ (ops : List TOp) (s : RState),
    InvC3 s → wfOps s ops = true → InvC3 (runOps s ops) := by
  intro ops
  induction ops with
  | nil =>
    intro s hinv _
    exact hinv
  | cons op rest ih =>
    intro s hinv hwf
    simp only [wfOps, Bool.and_eq_true] at hwf
    refine ih (stepOp s op) ?_ hwf.2
    cases op with
    | assign t v =>
      have h1 := hwf.1
      rcases hr : s.touches t with _ | ts
      · simp only [wfStep, hr] at h1
        exact Bool.noConfusion h1
      · simp only [wfStep, hr, Option.isNone_iff_eq_none] at h1
        exact assignTouch_inv s t v ts hr h1 hinv
    | unassign t => exact unassignTouch_inv s t hinv

/-- The empty index with fresh unassigned touches satisfies the
invariant. -/
theorem initState_inv (reg : List Nat) : InvC3 (initState reg) := by
  refine ⟨?_, ?_, ?_, ?_, ?_⟩
  · intro v
    rfl
  · intro v e h
    exact Option.noConfusion h
  · intro t ts v h hv
    simp only [initState] at h
    split at h
    · rcases Option.some_inj.mp h with rfl
      exact Option.noConfusion hv
    · exact Option.noConfusion h
  · intro v e t h
    exact absurd h (by exact Option.noConfusion)
  · intro v
    exact ⟨rfl, rfl⟩

/-- C3 (amended): along every sequence of assignTouch/unassignTouch calls
in which a touch is only assigned while currently unassigned (which is
how the dispatch engine always calls them, unassigning first), the index
invariant holds after every step: a view has a live entry (equivalently,
a non-empty touch set) exactly when its hasTouch indicator is true,
entries are removed eagerly when their count drops below one, and the
hasTouch writes to each view strictly alternate (exactly one toggle per
transition in each direction).  Without that restriction the claim fails:
assigning the same touch to the same view twice desynchronises the
touchCount from the deduplicating touch set. -/
theorem claim_C3_amended (reg : List Nat) (ops : List TOp)
    (hwf : wfOps (initState reg) ops = true) :
    InvC3 (runOps (initState reg) ops)
    ∧ (∀ v, (runOps (initState reg) ops).hasTouch v = true ↔
        ∃ l, touchesForView (runOps (initState reg) ops) v = some l ∧ l ≠ []) := by
  have hinv := runOps_inv ops (initState reg) (initState_inv reg) hwf
  refine ⟨hinv, ?_⟩
  intro v
  obtain ⟨I1, I2, _, _, _⟩ := hinv
  constructor
  · intro hv
    have h1 := I1 v
    rw [hv] at h1
    rcases he : (runOps (initState reg) ops).touchedViews v with _ | e
    · rw [he] at h1
      simp at h1
    · exact ⟨e.touches, by simp [touchesForView, he], (I2 v e he).1⟩
  · rintro ⟨l, hl, hnil⟩
    rw [← I1 v]
    simp only [touchesForView] at hl
    rcases he : (runOps (initState reg) ops).touchedViews v with _ | e
    · rw [he] at hl
      simp at hl
    · simp [he]

/-- A concrete well-formed sequence: two touches assigned to view 5, then
both unassigned. -/
def c3ops : List TOp := [.assign 1 5, .assign 2 5, .unassign 1, .unassign 2]

/-- Witness for the amended C3 theorem on the concrete sequence c3ops. -/
theorem claim_C3_witness :
    wfOps (initState [1, 2]) c3ops = true
    ∧ (InvC3 (runOps (initState [1, 2]) c3ops)
       ∧ (∀ v, (runOps (initState [1, 2]) c3ops).hasTouch v = true ↔
           ∃ l, touchesForView (runOps (initState [1, 2]) c3ops) v = some l ∧ l ≠ [])) :=
  ⟨by decide, claim_C3_amended [1, 2] c3ops (by decide)⟩
